import Mathlib

/-!
Shallow embedding of the authentication and authorization core of the
`anpsniper/anpbayu-be` Go backend (Fiber + golang-jwt/v5 + bcrypt).

Modelling conventions:
* JSON claim values are the inductive `ClaimVal` (string / integer number /
  boolean / array / null), mirroring what `encoding/json` hands to
  `jwt.MapClaims` (a `[]string` round-trips as `[]interface{}`).
* A claims map is an association list `List (String × ClaimVal)`; lookup takes
  the first binding, as Go map literals in the source never repeat keys.
* HMAC signing is modelled symbolically (Dolev-Yao style): a signature is the
  record of the key, algorithm and payload it was produced from, and
  verification is structural equality.  This makes the MAC perfect: no
  cross-key or cross-payload collisions, which is the standard symbolic
  idealisation of HS256.
* bcrypt is likewise symbolic: a well-formed hash records its salt and the
  digest of (salt, password); `GenerateFromPassword` of x/crypto rejects
  passwords longer than 72 bytes, which we keep as the only failure mode.
* Clocks are explicit `Int` unix-second parameters.
-/

/-- A JSON value as deserialised into an `interface{}` slot of
`jwt.MapClaims`. -/
inductive ClaimVal where
  | str (s : String)
  | num (n : Int)
  | boolean (b : Bool)
  | arr (elems : List ClaimVal)
  | null
deriving Repr

mutual

/-- Structural equality test for `ClaimVal`. -/
def ClaimVal.beq : ClaimVal → ClaimVal → Bool
  | .str a, .str b => a == b
  | .num a, .num b => a == b
  | .boolean a, .boolean b => a == b
  | .null, .null => true
  | .arr a, .arr b => ClaimVal.beqList a b
  | _, _ => false

/-- Elementwise `ClaimVal.beq` on lists. -/
def ClaimVal.beqList : List ClaimVal → List ClaimVal → Bool
  | [], [] => true
  | x :: xs, y :: ys => ClaimVal.beq x y && ClaimVal.beqList xs ys
  | _, _ => false

end

mutual

theorem ClaimVal.beq_iff : ∀ a b : ClaimVal, ClaimVal.beq a b = true ↔ a = b
  | .str a, .str b => by simp [ClaimVal.beq]
  | .str _, .num _ => by simp [ClaimVal.beq]
  | .str _, .boolean _ => by simp [ClaimVal.beq]
  | .str _, .arr _ => by simp [ClaimVal.beq]
  | .str _, .null => by simp [ClaimVal.beq]
  | .num _, .str _ => by simp [ClaimVal.beq]
  | .num a, .num b => by simp [ClaimVal.beq]
  | .num _, .boolean _ => by simp [ClaimVal.beq]
  | .num _, .arr _ => by simp [ClaimVal.beq]
  | .num _, .null => by simp [ClaimVal.beq]
  | .boolean _, .str _ => by simp [ClaimVal.beq]
  | .boolean _, .num _ => by simp [ClaimVal.beq]
  | .boolean a, .boolean b => by simp [ClaimVal.beq]
  | .boolean _, .arr _ => by simp [ClaimVal.beq]
  | .boolean _, .null => by simp [ClaimVal.beq]
  | .arr _, .str _ => by simp [ClaimVal.beq]
  | .arr _, .num _ => by simp [ClaimVal.beq]
  | .arr _, .boolean _ => by simp [ClaimVal.beq]
  | .arr a, .arr b => by
      simpa [ClaimVal.beq] using ClaimVal.beqList_iff a b
  | .arr _, .null => by simp [ClaimVal.beq]
  | .null, .str _ => by simp [ClaimVal.beq]
  | .null, .num _ => by simp [ClaimVal.beq]
  | .null, .boolean _ => by simp [ClaimVal.beq]
  | .null, .arr _ => by simp [ClaimVal.beq]
  | .null, .null => by simp [ClaimVal.beq]

theorem ClaimVal.beqList_iff :
    ∀ a b : List ClaimVal, ClaimVal.beqList a b = true ↔ a = b
  | [], [] => by simp [ClaimVal.beqList]
  | [], _ :: _ => by simp [ClaimVal.beqList]
  | _ :: _, [] => by simp [ClaimVal.beqList]
  | x :: xs, y :: ys => by
      simp only [ClaimVal.beqList, Bool.and_eq_true, List.cons.injEq]
      exact and_congr (ClaimVal.beq_iff x y) (ClaimVal.beqList_iff xs ys)

end

instance : DecidableEq ClaimVal := fun a b =>
  decidable_of_iff (ClaimVal.beq a b = true) (ClaimVal.beq_iff a b)

/-- A JWT claims map (`jwt.MapClaims`): first-binding-wins association list. -/
abbrev ClaimsMap := List (String × ClaimVal)

/-- `claims[key]` of a Go map, `nil` when absent. -/
def lookupClaim (claims : ClaimsMap) (key : String) : Option ClaimVal :=
  match claims with
  | [] => none
  | (k, v) :: rest => if k = key then some v else lookupClaim rest key

/-- Signing algorithms that occur in a token's `alg` header. -/
inductive Alg where
  | HS256
  | RS256
  | noneAlg
deriving DecidableEq, Repr

/-- `token.Method.(*jwt.SigningMethodHMAC)` succeeds exactly for the HMAC
family; HS256 is the only member the model carries. -/
def Alg.isHMAC : Alg → Bool
  | .HS256 => true
  | _ => false

/-- A symbolic MAC value: the key, algorithm and payload that produced it.
Verification is equality of records, i.e. a perfect MAC. -/
structure Mac where
  key : String
  alg : Alg
  payload : ClaimsMap
deriving DecidableEq, Repr

/-- `token.SignedString(secret)` for the model. -/
def macSign (secret : String) (alg : Alg) (payload : ClaimsMap) : Mac :=
  ⟨secret, alg, payload⟩

/-- A decoded JWT: header algorithm, claims payload, signature. -/
structure Token where
  alg : Alg
  claims : ClaimsMap
  sig : Mac
deriving DecidableEq, Repr

/-- Symbolic bcrypt digest of a salt/password pair (perfect one-way
function: equality of digests is equality of inputs). -/
structure BcryptDigest where
  salt : String
  pw : String
deriving DecidableEq, Repr

/-- A stored password-hash column value: either a well-formed bcrypt hash
(salt plus digest) or an arbitrary malformed string. -/
inductive BcryptHash where
  | wellFormed (salt : String) (digest : BcryptDigest)
  | malformed (raw : String)
deriving DecidableEq, Repr

/-- `bcrypt.GenerateFromPassword`: fails only when the password exceeds the
72-byte bcrypt limit, otherwise produces a salted well-formed hash.  The salt
argument models the entropy drawn inside bcrypt. -/
def generateFromPassword (salt : String) (password : String) :
    Except String BcryptHash :=
  if password.utf8ByteSize > 72 then
    .error "bcrypt: password length exceeds 72 bytes"
  else
    .ok (.wellFormed salt ⟨salt, password⟩)

/-- `bcrypt.CompareHashAndPassword` reduced to its boolean outcome: `true`
iff no error.  A malformed hash is an error; a well-formed hash matches iff
re-digesting the candidate password under the stored salt reproduces the
stored digest. -/
def compareHashAndPassword : BcryptHash → String → Bool
  | .wellFormed salt digest, password => decide (digest = ⟨salt, password⟩)
  | .malformed _, _ => false

/-- `services.HashPassword` (src/services/user_service.go): wraps
`bcrypt.GenerateFromPassword` and propagates its error. -/
def HashPassword (salt : String) (password : String) :
    Except String BcryptHash :=
  generateFromPassword salt password

/-- `services.ComparePasswords` (src/services/user_service.go): `true` iff
`bcrypt.CompareHashAndPassword` returned no error. -/
def ComparePasswords (hashedPassword : BcryptHash) (password : String) :
    Bool :=
  compareHashAndPassword hashedPassword password

/-- `middleware.GenerateJWT(userID, email, roles)` (middleware fragment):
builds the `jwt.MapClaims` literal with `exp = now + 24h`, `iat = now`, and
signs it HS256 under the configured secret.  `now` is the wall clock at the
moment of the call. -/
def GenerateJWT (secret : String) (now : Int) (userID : String)
    (email : String) (roles : List String) : Token :=
  let claims : ClaimsMap :=
    [("user_id", .str userID),
     ("email", .str email),
     ("roles", .arr (roles.map .str)),
     ("exp", .num (now + 24 * 3600)),
     ("iat", .num now)]
  ⟨.HS256, claims, macSign secret .HS256 claims⟩

/-- Failure classification of `jwt.ParseWithClaims` as the middleware sees
it (all map to the same HTTP response, so only the partition matters). -/
inductive JwtError where
  | badAlg
  | badSignature
  | expired
  | malformedExp
deriving DecidableEq, Repr

/-- `jwt.ParseWithClaims` with the source's keyfunc: reject non-HMAC `alg`
headers, verify the HS256 signature under `secret`, then validate the
registered `exp` claim against `now` (`exp` is not required; a present but
non-numeric `exp` is a decode error). -/
def parseWithClaims (secret : String) (now : Int) (t : Token) :
    Except JwtError ClaimsMap :=
  if ¬ t.alg.isHMAC then .error .badAlg
  else if t.sig ≠ macSign secret t.alg t.claims then .error .badSignature
  else
    match lookupClaim t.claims "exp" with
    | some (.num e) => if e ≤ now then .error .expired else .ok t.claims
    | some _ => .error .malformedExp
    | none => .ok t.claims

/-- The `email` field of the decoded `middleware.Claims` struct: the
`"email"` claim when it is a string, Go's zero string otherwise. -/
def emailOf (claims : ClaimsMap) : String :=
  match lookupClaim claims "email" with
  | some (.str s) => s
  | _ => ""

/-- The `Authorization` header of a request, as the middlewares case on it:
absent, present without the `Bearer ` prefix, or a bearer token (tokens are
carried decoded, since parsing structure never fails in the model). -/
inductive AuthHeader where
  | missing
  | notBearer (raw : String)
  | bearer (t : Token)

/-- Outcome of `middleware.AuthRequired`: an unauthorized JSON response, or
`c.Next()` with `userEmail` stored in the context locals. -/
inductive AuthResult where
  | unauthorized (msg : String)
  | next (userEmail : String)
deriving DecidableEq, Repr

/-- `middleware.AuthRequired` (middleware fragment): checks the header, then
`jwt.ParseWithClaims`, then `token.Valid`, then claim extraction, then the
redundant explicit expiry check, and finally proceeds with the email in
locals.  Every failure is a 401 response. -/
def AuthRequired (secret : String) (now : Int) (hdr : AuthHeader) :
    AuthResult :=
  match hdr with
  | .missing => .unauthorized "Unauthorized: Missing token"
  | .notBearer _ => .unauthorized "Unauthorized: Invalid token format"
  | .bearer t =>
    match parseWithClaims secret now t with
    | .error _ => .unauthorized "Unauthorized: Invalid token"
    | .ok claims =>
      match lookupClaim claims "exp" with
      | some (.num e) =>
        if e < now then .unauthorized "Unauthorized: Token expired"
        else .next (emailOf claims)
      | _ => .next (emailOf claims)

/-- Outcome of the `jwtware` middleware configured in `main.go` together
with its inline `ErrorHandler`: an error response (400 for missing or
malformed, 401 otherwise) or proceed with the parsed token in locals
`"user"`. -/
inductive MwResult where
  | errorResp (code : Nat) (errMsg : String)
  | proceed (userLocal : Token)
deriving DecidableEq, Repr

/-- `jwtware.New` as configured in `main.go` lines 80-88: extract the bearer
token (absence or malformed header yields the "Missing or malformed JWT"
error, mapped to 400), parse and validate it under the configured secret
(failures map to 401 "Invalid or expired JWT"), and on success store the
token for downstream handlers. -/
def jwtMiddleware (secret : String) (now : Int) (hdr : AuthHeader) :
    MwResult :=
  match hdr with
  | .missing => .errorResp 400 "Missing or malformed JWT"
  | .notBearer _ => .errorResp 400 "Missing or malformed JWT"
  | .bearer t =>
    match parseWithClaims secret now t with
    | .error _ => .errorResp 401 "Invalid or expired JWT"
    | .ok _ => .proceed t

/-- `middleware.GetUserIDFromJWT`: reads locals `"user"` (the parsed token,
or `none` when the JWT middleware did not run), extracts the `"user_id"`
claim when it is a string.  `none` models Go's `("", false)`. -/
def GetUserIDFromJWT (userLocal : Option Token) : Option String :=
  match userLocal with
  | none => none
  | some token =>
    match lookupClaim token.claims "user_id" with
    | some (.str s) => some s
    | _ => none

/-- `middleware.GetUserRolesFromJWT`: reads locals `"user"`; when the
`"roles"` claim deserialised to `[]interface{}` it keeps exactly the string
elements and reports success; when it is a single string it wraps it; any
other shape (or an absent claim) is `(nil, false)`, modelled `none`. -/
def GetUserRolesFromJWT (userLocal : Option Token) : Option (List String) :=
  match userLocal with
  | none => none
  | some token =>
    match lookupClaim token.claims "roles" with
    | some (.arr elems) =>
      some (elems.filterMap fun v =>
        match v with
        | .str s => some s
        | _ => none)
    | some (.str s) => some [s]
    | _ => none

/-- Outcome of the `HasRole` middleware: `c.Next()` or a 403 JSON
response. -/
inductive RoleCheck where
  | next
  | forbidden (msg : String)
deriving DecidableEq, Repr

/-- `middleware.HasRole(requiredRoles...)`: 403 when role extraction fails;
otherwise scan `requiredRoles` against the token's roles and proceed on the
first match, else 403. -/
def HasRole (requiredRoles : List String) (userLocal : Option Token) :
    RoleCheck :=
  match GetUserRolesFromJWT userLocal with
  | none =>
    .forbidden
      "Forbidden: User roles not found in token or token invalid. (Ensure JWT middleware runs first)"
  | some userRoles =>
    if requiredRoles.any fun requiredRole =>
        userRoles.any fun userRole => userRole == requiredRole then
      .next
    else
      .forbidden "Forbidden: Insufficient role permissions"

/-- The JSON body of a controller response, with one optional slot per key
the `AuthController` ever emits (absent keys are `none`). -/
structure HttpResponse where
  code : Nat
  status : Option String := none
  message : Option String := none
  token : Option Token := none
  user_id : Option String := none
  username : Option String := none
  email : Option String := none
  role_id : Option String := none
  roles : Option (List String) := none
  last_login_log_id : Option Int := none
deriving DecidableEq, Repr

/-- A user row as `UserService.GetUserByEmail` materialises it for the login
handler: id, username, email, stored bcrypt hash, role id and denormalised
role name. -/
structure DbUser where
  id : String
  username : String
  email : String
  password : BcryptHash
  roleID : String
  roleName : String
deriving DecidableEq, Repr

/-- Outcome of `c.UserService.GetUserByEmail`: a store error (`err ≠ nil`),
no row (`nil, nil`), or the user. -/
inductive DbLookup where
  | dbError (msg : String)
  | notFound
  | found (u : DbUser)
deriving DecidableEq, Repr

/-- The decoded login body (`{email, password}`). -/
structure LoginRequest where
  email : String
  password : String
deriving DecidableEq, Repr

/-- `AuthController.Login` (auth-controller fragment):
parse failure → 400; store error → 500; unknown email → 401
"Invalid credentials"; bcrypt mismatch → the same 401; otherwise issue a JWT,
best-effort write the login log (a failed write degrades `logID` to Go's
zero value and is not surfaced), and answer 200 with the token and user
fields.  `db` is the credential store keyed by email, `logOutcome` the
session-log insert result, `body` the parse result of the request body.
Symbolic HS256 signing cannot fail, so the source's 500 "Failed to generate
token" branch is unreachable in the model. -/
def Login (db : String → DbLookup) (secret : String) (now : Int)
    (logOutcome : Except String Int) (body : Option LoginRequest) :
    HttpResponse :=
  match body with
  | none =>
    { code := 400, status := some "error",
      message := some "Invalid request body" }
  | some req =>
    match db req.email with
    | .dbError _ =>
      { code := 500, status := some "error",
        message := some "Internal server error" }
    | .notFound =>
      { code := 401, status := some "error",
        message := some "Invalid credentials" }
    | .found user =>
      if compareHashAndPassword user.password req.password then
        let token := GenerateJWT secret now user.id user.email [user.roleName]
        let logID : Int :=
          match logOutcome with
          | .ok n => n
          | .error _ => 0
        { code := 200, status := some "success",
          message := some "Login successful", token := some token,
          user_id := some user.id, username := some user.username,
          email := some user.email, role_id := some user.roleID,
          roles := some [user.roleName], last_login_log_id := some logID }
      else
        { code := 401, status := some "error",
          message := some "Invalid credentials" }

/-- The decoded logout body: `lastLoginLogID = some n` when the JSON carried
the `last_login_log_id` key (Go decodes an absent key to the zero value
`0`). -/
structure LogoutRequest where
  lastLoginLogID : Option Int
deriving DecidableEq, Repr

/-- `AuthController.Logout` (auth-controller fragment): parse failure → 400;
decoded id `0` (absent key, or an explicit `0`) → 400 "last_login_log_id is
required for logout logging"; otherwise call the session-log update and
answer 200 "success" whether or not it succeeded.  `updateOutcome` is the
result of `UserService.UpdateUserLogoutLog` (its error covers both a store
failure and an unknown id). -/
def Logout (updateOutcome : Except String Unit) (body : Option LogoutRequest) :
    HttpResponse :=
  match body with
  | none =>
    { code := 400, status := some "error",
      message := some "Invalid request body" }
  | some req =>
    let lastLoginLogID := req.lastLoginLogID.getD 0
    if lastLoginLogID = 0 then
      { code := 400, status := some "error",
        message := some "last_login_log_id is required for logout logging" }
    else
      match updateOutcome with
      | .error _ =>
        { code := 200, status := some "success",
          message := some "Logout successful, but log update failed." }
      | .ok _ =>
        { code := 200, status := some "success",
          message := some "Logout successful and log updated." }

/-! ## Claims -/

/-- C1: With the JWT's role set extracted successfully, `HasRole` proceeds
to the next handler iff some required name occurs among the token's roles
(logical OR), and otherwise answers the 403 "Insufficient role permissions"
response. -/
theorem HasRole_next_iff_intersects (names userRoles : List String)
    (tok : Option Token) (h : GetUserRolesFromJWT tok = some userRoles) :
    (HasRole names tok = .next ↔ ∃ r, r ∈ names ∧ r ∈ userRoles) ∧
    (¬ (∃ r, r ∈ names ∧ r ∈ userRoles) →
      HasRole names tok = .forbidden "Forbidden: Insufficient role permissions") := by
  unfold HasRole
  rw [h]
  by_cases hany : names.any (fun requiredRole =>
      userRoles.any fun userRole => userRole == requiredRole) = true
  · have hex : ∃ r, r ∈ names ∧ r ∈ userRoles := by
      simp only [List.any_eq_true, beq_iff_eq] at hany
      obtain ⟨r, hr, u, hu, hequ⟩ := hany
      exact ⟨r, hr, hequ ▸ hu⟩
    simp [hany, hex]
  · have hnex : ¬ ∃ r, r ∈ names ∧ r ∈ userRoles := by
      intro ⟨r, hr, hu⟩
      exact hany (by
        simp only [List.any_eq_true, beq_iff_eq]
        exact ⟨r, hr, r, hu, rfl⟩)
    simp [hany, hnex]

/-- Witness for C1 at concrete tokens: requiring only "admin" accepts a
token with roles ["admin","user"] and rejects one with roles ["user"]. -/
theorem HasRole_next_iff_intersects_witness :
    HasRole ["admin"]
      (some ⟨.HS256, [("roles", .arr [.str "admin", .str "user"])],
        macSign "s" .HS256 [("roles", .arr [.str "admin", .str "user"])]⟩) =
      .next ∧
    HasRole ["admin"]
      (some ⟨.HS256, [("roles", .arr [.str "user"])],
        macSign "s" .HS256 [("roles", .arr [.str "user"])]⟩) =
      .forbidden "Forbidden: Insufficient role permissions" := by
  constructor
  · exact (HasRole_next_iff_intersects ["admin"] ["admin", "user"] _
      (by decide)).1.mpr ⟨"admin", by decide, by decide⟩
  · exact (HasRole_next_iff_intersects ["admin"] ["user"] _
      (by decide)).2 (by decide)

/-- C10: `HasRole` with an empty required-role list never proceeds: the
scanning loop has nothing to match, so every request — whatever its token
and roles — gets a 403 Forbidden response. -/
theorem HasRole_empty_denies_all (tok : Option Token) :
    HasRole [] tok ≠ .next ∧ ∃ msg, HasRole [] tok = .forbidden msg := by
  unfold HasRole
  match hr : GetUserRolesFromJWT tok with
  | none => exact ⟨by simp, _, rfl⟩
  | some userRoles =>
    exact ⟨by simp, "Forbidden: Insufficient role permissions", by simp⟩

/-- C2: a token issued by `GenerateJWT`, validated before its 24-hour
expiry under the same secret, passes the JWT middleware, and the claim
getters recover exactly the issued user id and role list. -/
theorem GenerateJWT_validate_roundtrip (secret userID email : String)
    (roles : List String) (now t : Int) (h : t < now + 24 * 3600) :
    jwtMiddleware secret t (.bearer (GenerateJWT secret now userID email roles)) =
      .proceed (GenerateJWT secret now userID email roles) ∧
    GetUserIDFromJWT (some (GenerateJWT secret now userID email roles)) =
      some userID ∧
    GetUserRolesFromJWT (some (GenerateJWT secret now userID email roles)) =
      some roles := by
  refine ⟨?_, ?_, ?_⟩
  · have hnle : ¬ (now + 86400 ≤ t) := by omega
    simp [jwtMiddleware, GenerateJWT, parseWithClaims, Alg.isHMAC, macSign,
      lookupClaim, hnle]
  · simp [GetUserIDFromJWT, GenerateJWT, lookupClaim]
  · simp [GetUserRolesFromJWT, GenerateJWT, lookupClaim]
    exact List.filterMap_some roles

/-- Witness for C2 at a concrete issuance validated at the issuing
instant. -/
theorem GenerateJWT_validate_roundtrip_witness :
    (0 : Int) < 0 + 24 * 3600 ∧
    GetUserIDFromJWT (some (GenerateJWT "s" 0 "u-42" "a@b.c" ["admin"])) =
      some "u-42" ∧
    GetUserRolesFromJWT (some (GenerateJWT "s" 0 "u-42" "a@b.c" ["admin"])) =
      some ["admin"] := by
  have h := GenerateJWT_validate_roundtrip "s" "u-42" "a@b.c" ["admin"] 0 0
    (by decide)
  exact ⟨by decide, h.2.1, h.2.2⟩

/-- `parseWithClaims` fails on every token whose embedded `exp` claim lies
at or before the validation instant, whatever its algorithm and
signature. -/
theorem parseWithClaims_expired (secret : String) (now e : Int) (t : Token)
    (hexp : lookupClaim t.claims "exp" = some (.num e)) (hpast : e ≤ now) :
    ∃ err, parseWithClaims secret now t = .error err := by
  unfold parseWithClaims
  by_cases halg : t.alg.isHMAC
  · by_cases hsig : t.sig = macSign secret t.alg t.claims
    · exact ⟨.expired, by simp [halg, hsig, hexp, hpast]⟩
    · exact ⟨.badSignature, by simp [halg, hsig]⟩
  · exact ⟨.badAlg, by simp [halg]⟩

/-- C5: a bearer token whose `exp` timestamp is in the past is rejected by
both authentication middlewares with their unauthorized (401) response, so
the request never reaches a downstream handler; when the token is
well-signed the failure is classified as expiry. -/
theorem expired_token_rejected (secret : String) (now e : Int) (t : Token)
    (hexp : lookupClaim t.claims "exp" = some (.num e)) (hpast : e < now) :
    AuthRequired secret now (.bearer t) =
      .unauthorized "Unauthorized: Invalid token" ∧
    jwtMiddleware secret now (.bearer t) =
      .errorResp 401 "Invalid or expired JWT" ∧
    (t.alg = .HS256 → t.sig = macSign secret t.alg t.claims →
      parseWithClaims secret now t = .error .expired) := by
  obtain ⟨err, he⟩ := parseWithClaims_expired secret now e t hexp (le_of_lt hpast)
  refine ⟨by simp [AuthRequired, he], by simp [jwtMiddleware, he], ?_⟩
  intro halg hsig
  have hle : e ≤ now := le_of_lt hpast
  simp [parseWithClaims, halg, Alg.isHMAC, hsig, hexp, hle]

/-- Witness for C5: a correctly signed token with `exp = 0` presented at
time 1 is rejected by both middlewares with an expiry-classified error. -/
theorem expired_token_rejected_witness :
    AuthRequired "s" 1
        (.bearer ⟨.HS256, [("exp", .num 0)],
          macSign "s" .HS256 [("exp", .num 0)]⟩) =
      .unauthorized "Unauthorized: Invalid token" ∧
    jwtMiddleware "s" 1
        (.bearer ⟨.HS256, [("exp", .num 0)],
          macSign "s" .HS256 [("exp", .num 0)]⟩) =
      .errorResp 401 "Invalid or expired JWT" ∧
    parseWithClaims "s" 1
        ⟨.HS256, [("exp", .num 0)], macSign "s" .HS256 [("exp", .num 0)]⟩ =
      .error .expired := by
  have h := expired_token_rejected "s" 1 0
    ⟨.HS256, [("exp", .num 0)], macSign "s" .HS256 [("exp", .num 0)]⟩
    (by decide) (by decide)
  exact ⟨h.1, h.2.1, h.2.2 rfl rfl⟩

/-- C6: a token whose signature was produced under a key other than the
configured secret fails validation in both middlewares — whatever algorithm,
payload and claims it carries — and the request is rejected with the
unauthorized (401) response. -/
theorem wrong_secret_rejected (secret secretOther : String) (now : Int)
    (a : Alg) (payload : ClaimsMap) (t : Token)
    (hsig : t.sig = macSign secretOther a payload)
    (hne : secretOther ≠ secret) :
    AuthRequired secret now (.bearer t) =
      .unauthorized "Unauthorized: Invalid token" ∧
    jwtMiddleware secret now (.bearer t) =
      .errorResp 401 "Invalid or expired JWT" := by
  have hsigne : t.sig ≠ macSign secret t.alg t.claims := by
    intro hcontr
    rw [hsig] at hcontr
    exact hne (congrArg Mac.key hcontr)
  have hparse : ∃ err, parseWithClaims secret now t = .error err := by
    unfold parseWithClaims
    by_cases halg : t.alg.isHMAC
    · exact ⟨.badSignature, by simp [halg, hsigne]⟩
    · exact ⟨.badAlg, by simp [halg]⟩
  obtain ⟨err, he⟩ := hparse
  exact ⟨by simp [AuthRequired, he], by simp [jwtMiddleware, he]⟩

/-- Witness for C6: a fresh, well-formed token signed under "other" is
rejected when the configured secret is "s". -/
theorem wrong_secret_rejected_witness :
    AuthRequired "s" 0
        (.bearer ⟨.HS256, [("exp", .num 100), ("user_id", .str "u")],
          macSign "other" .HS256 [("exp", .num 100), ("user_id", .str "u")]⟩) =
      .unauthorized "Unauthorized: Invalid token" ∧
    jwtMiddleware "s" 0
        (.bearer ⟨.HS256, [("exp", .num 100), ("user_id", .str "u")],
          macSign "other" .HS256 [("exp", .num 100), ("user_id", .str "u")]⟩) =
      .errorResp 401 "Invalid or expired JWT" :=
  wrong_secret_rejected "s" "other" 0 .HS256
    [("exp", .num 100), ("user_id", .str "u")]
    ⟨.HS256, [("exp", .num 100), ("user_id", .str "u")],
      macSign "other" .HS256 [("exp", .num 100), ("user_id", .str "u")]⟩
    rfl (by decide)

/-- C7: whenever `HashPassword` succeeds, verifying the produced hash
against the very plaintext it hashed succeeds, whatever salt bcrypt drew. -/
theorem ComparePasswords_HashPassword (salt password : String)
    (h : BcryptHash) (hok : HashPassword salt password = .ok h) :
    ComparePasswords h password = true := by
  unfold HashPassword generateFromPassword at hok
  by_cases hlen : password.utf8ByteSize > 72
  · simp [hlen] at hok
  · simp only [hlen, if_neg, ite_false] at hok
    cases hok
    simp [ComparePasswords, compareHashAndPassword]

/-- Witness for C7 on a concrete salt and password. -/
theorem ComparePasswords_HashPassword_witness :
    HashPassword "salt0" "password" =
      .ok (.wellFormed "salt0" ⟨"salt0", "password"⟩) ∧
    ComparePasswords (.wellFormed "salt0" ⟨"salt0", "password"⟩) "password" =
      true :=
  ⟨by rfl,
    ComparePasswords_HashPassword "salt0" "password"
      (.wellFormed "salt0" ⟨"salt0", "password"⟩) (by rfl)⟩

/-- C8: `ComparePasswords` is a total function (the model is a Lean
function, so it can neither throw nor panic) and it returns `false` both on
a malformed stored hash and on a well-formed hash whose digest does not
match the candidate plaintext. -/
theorem ComparePasswords_false_on_mismatch_or_malformed
    (salt raw password : String) (d : BcryptDigest)
    (hne : d ≠ ⟨salt, password⟩) :
    ComparePasswords (.malformed raw) password = false ∧
    ComparePasswords (.wellFormed salt d) password = false := by
  constructor
  · rfl
  · simp [ComparePasswords, compareHashAndPassword, hne]

/-- Witness for C8: a malformed hash and a digest for a different password
both verify to `false`. -/
theorem ComparePasswords_false_witness :
    ComparePasswords (.malformed "not-a-bcrypt-hash") "pw" = false ∧
    ComparePasswords (.wellFormed "s1" ⟨"s1", "other"⟩) "pw" = false :=
  ComparePasswords_false_on_mismatch_or_malformed "s1" "not-a-bcrypt-hash"
    "pw" ⟨"s1", "other"⟩ (by decide)

/-- C3: the two authentication failure causes of `Login` — email unknown,
and email known but password not verifying — produce identical externally
visible responses: 401, status "error", message "Invalid credentials", and
no token field.  The store contents, secrets, clocks and log outcomes of
the two runs may differ arbitrarily. -/
theorem Login_failures_indistinguishable
    (db1 db2 : String → DbLookup) (secret1 secret2 : String)
    (now1 now2 : Int) (log1 log2 : Except String Int)
    (req1 req2 : LoginRequest) (u : DbUser)
    (h1 : db1 req1.email = .notFound)
    (h2 : db2 req2.email = .found u)
    (h3 : compareHashAndPassword u.password req2.password = false) :
    Login db1 secret1 now1 log1 (some req1) =
      Login db2 secret2 now2 log2 (some req2) ∧
    Login db1 secret1 now1 log1 (some req1) =
      { code := 401, status := some "error",
        message := some "Invalid credentials" } ∧
    (Login db1 secret1 now1 log1 (some req1)).token = none := by
  have e1 : Login db1 secret1 now1 log1 (some req1) =
      { code := 401, status := some "error",
        message := some "Invalid credentials" } := by
    simp [Login, h1]
  have e2 : Login db2 secret2 now2 log2 (some req2) =
      { code := 401, status := some "error",
        message := some "Invalid credentials" } := by
    simp [Login, h2, h3]
  exact ⟨e1.trans e2.symm, e1, by rw [e1]⟩

/-- Witness for C3: an unknown email on one run and a wrong password on
another yield the same 401 "Invalid credentials" response without token. -/
theorem Login_failures_indistinguishable_witness :
    Login (fun _ => .notFound) "s1" 0 (.ok 1) (some ⟨"ghost@x", "pw"⟩) =
      Login
        (fun _ =>
          .found ⟨"id1", "alice", "alice@x",
            .wellFormed "na" ⟨"na", "right-password"⟩, "r1", "admin"⟩)
        "s2" 7 (.error "log down") (some ⟨"alice@x", "wrong-password"⟩) ∧
    (Login (fun _ => .notFound) "s1" 0 (.ok 1) (some ⟨"ghost@x", "pw"⟩)).code =
      401 := by
  have h := Login_failures_indistinguishable
    (fun _ => .notFound)
    (fun _ =>
      .found ⟨"id1", "alice", "alice@x",
        .wellFormed "na" ⟨"na", "right-password"⟩, "r1", "admin"⟩)
    "s1" "s2" 0 7 (.ok 1) (.error "log down")
    ⟨"ghost@x", "pw"⟩ ⟨"alice@x", "wrong-password"⟩
    ⟨"id1", "alice", "alice@x",
      .wellFormed "na" ⟨"na", "right-password"⟩, "r1", "admin"⟩
    rfl rfl (by decide)
  exact ⟨h.1, by rw [h.2.1]⟩

/-- C4 counterexample: a logout body that explicitly carries
`last_login_log_id = 0` is answered 400, not 200 — Go's decoder cannot
tell an explicit zero from an absent key, so "body carries the id" does not
imply success. -/
theorem Logout_carried_zero_id_is_400 :
    Logout (.ok ()) (some ⟨some 0⟩) =
      { code := 400, status := some "error",
        message := some "last_login_log_id is required for logout logging" } ∧
    (Logout (.ok ()) (some ⟨some 0⟩)).code ≠ 200 := by
  constructor
  · rfl
  · decide

/-- C4 amended: a logout body whose decoded `last_login_log_id` is nonzero
is answered 200 "success" regardless of the session-log update outcome; the
handler answers 400 exactly when the body fails to parse or the decoded id
is zero (the key absent, or explicitly `0`). -/
theorem Logout_contract (outcome : Except String Unit)
    (body : Option LogoutRequest) :
    (∀ req, body = some req → req.lastLoginLogID.getD 0 ≠ 0 →
      (Logout outcome body).code = 200 ∧
      (Logout outcome body).status = some "success") ∧
    ((Logout outcome body).code = 400 ↔
      body = none ∨ ∃ req, body = some req ∧ req.lastLoginLogID.getD 0 = 0) := by
  cases body with
  | none => simp [Logout]
  | some req =>
    by_cases hid : req.lastLoginLogID.getD 0 = 0
    · simp [Logout, hid]
    · cases outcome with
      | ok u => simp [Logout, hid]
      | error e => simp [Logout, hid]

/-- Witness for C4's amended contract: an unknown log id (update errors)
still gets 200 "success". -/
theorem Logout_contract_witness :
    (Logout (.error "log row not found") (some ⟨some 5⟩)).code = 200 ∧
    (Logout (.error "log row not found") (some ⟨some 5⟩)).status =
      some "success" :=
  (Logout_contract (.error "log row not found") (some ⟨some 5⟩)).1
    ⟨some 5⟩ rfl (by decide)

/-- C9 counterexample: a `"roles"` claim that is a bare string, or a
heterogeneous array, still extracts successfully — the code wraps the
string and silently drops non-string elements instead of reporting
failure. -/
theorem GetUserRoles_nonhomogeneous_succeeds :
    GetUserRolesFromJWT
        (some ⟨.HS256, [("roles", .str "admin")],
          macSign "s" .HS256 [("roles", .str "admin")]⟩) = some ["admin"] ∧
    GetUserRolesFromJWT
        (some ⟨.HS256, [("roles", .arr [.num 1, .str "user"])],
          macSign "s" .HS256 [("roles", .arr [.num 1, .str "user"])]⟩) =
      some ["user"] := by
  constructor <;> rfl

/-- C9 amended: extraction succeeds on a homogeneous string array with
exactly those strings; it also succeeds on any array (keeping only string
elements) and on a bare string (wrapping it); it reports failure — `none`,
never a crash — exactly when the `"roles"` claim is absent or is neither an
array nor a string. -/
theorem GetUserRoles_extraction_spec (tok : Token) :
    (∀ ss : List String,
      lookupClaim tok.claims "roles" = some (.arr (ss.map .str)) →
      GetUserRolesFromJWT (some tok) = some ss) ∧
    (∀ elems : List ClaimVal,
      lookupClaim tok.claims "roles" = some (.arr elems) →
      ∃ ss : List String, GetUserRolesFromJWT (some tok) = some ss) ∧
    (∀ s : String, lookupClaim tok.claims "roles" = some (.str s) →
      GetUserRolesFromJWT (some tok) = some [s]) ∧
    (∀ v : ClaimVal, lookupClaim tok.claims "roles" = some v →
      (∀ elems, v ≠ .arr elems) → (∀ s, v ≠ .str s) →
      GetUserRolesFromJWT (some tok) = none) ∧
    (lookupClaim tok.claims "roles" = none →
      GetUserRolesFromJWT (some tok) = none) := by
  refine ⟨?_, ?_, ?_, ?_, ?_⟩
  · intro ss hss
    simp [GetUserRolesFromJWT, hss]
    exact List.filterMap_some ss
  · intro elems helems
    refine ⟨elems.filterMap (fun v =>
      match v with
      | .str s => some s
      | _ => none), ?_⟩
    simp [GetUserRolesFromJWT, helems]
  · intro s hs
    simp [GetUserRolesFromJWT, hs]
  · intro v hv hnarr hnstr
    cases v with
    | str s => exact absurd rfl (hnstr s)
    | arr elems => exact absurd rfl (hnarr elems)
    | num n => simp [GetUserRolesFromJWT, hv]
    | boolean b => simp [GetUserRolesFromJWT, hv]
    | null => simp [GetUserRolesFromJWT, hv]
  · intro hnone
    simp [GetUserRolesFromJWT, hnone]

/-- Witness for C9's amended contract: a homogeneous ["admin","user"] array
extracts to exactly those strings, and a numeric roles claim fails. -/
theorem GetUserRoles_extraction_spec_witness :
    GetUserRolesFromJWT
        (some ⟨.HS256, [("roles", .arr [.str "admin", .str "user"])],
          macSign "s" .HS256 [("roles", .arr [.str "admin", .str "user"])]⟩) =
      some ["admin", "user"] ∧
    GetUserRolesFromJWT
        (some ⟨.HS256, [("roles", .num 3)],
          macSign "s" .HS256 [("roles", .num 3)]⟩) = none := by
  constructor
  · exact (GetUserRoles_extraction_spec
      ⟨.HS256, [("roles", .arr [.str "admin", .str "user"])],
        macSign "s" .HS256 [("roles", .arr [.str "admin", .str "user"])]⟩).1
      ["admin", "user"] (by decide)
  · exact (GetUserRoles_extraction_spec
      ⟨.HS256, [("roles", .num 3)],
        macSign "s" .HS256 [("roles", .num 3)]⟩).2.2.2.1
      (.num 3) (by decide) (by intro elems h; cases h) (by intro s h; cases h)
